import Mathlib

/-!
Shallow embedding of the redis-go server core (src/app/server.go):
the RESP frame decoder `parse`, the TTL-aware key-value `Store`,
the per-connection command dispatcher of `handleConnection`, and the
replica receive-loop body of `replicateMaster`.

Conventions of the embedding:
* Go byte buffers are Lean `String`s (the protocol content is ASCII);
  Go `len` on a string is `String.utf8ByteSize`.
* `time.Time` instants and `time.Duration` values are integer nanoseconds.
* A Go map is a function to `Option`.
* A Go runtime panic (out-of-range slice index) is `none` in an
  `Option`-valued step function.
* Network writes are recorded as an ordered list of write events.
-/

namespace RedisGo

/-- ASCII lower-casing of one character; Go `strings.ToLower` restricted to
the ASCII range, which covers all protocol content in this development. -/
def lowerChar (c : Char) : Char :=
  if 'A' ≤ c ∧ c ≤ 'Z' then Char.ofNat (c.toNat + 32) else c

/-- Go `strings.ToLower` on a whole string (ASCII range). -/
def lowerStr (s : String) : String :=
  String.mk (s.data.map lowerChar)

def isDigitCh (c : Char) : Bool := '0' ≤ c && c ≤ '9'

def digitsToNat (ds : List Char) : Nat :=
  ds.foldl (fun a c => a * 10 + (c.toNat - 48)) 0

/-- Go `strconv.Atoi`: optional sign, then one or more decimal digits,
with the 64-bit range check; anything else is an error (`none`). -/
def atoi (cs : List Char) : Option Int :=
  let signed : Int × List Char :=
    match cs with
    | '+' :: rest => (1, rest)
    | '-' :: rest => (-1, rest)
    | _ => (1, cs)
  let ds := signed.2
  if ds.isEmpty then none
  else if ds.all isDigitCh then
    let v := digitsToNat ds
    if signed.1 = 1 ∧ v ≤ 2 ^ 63 - 1 then some (v : Int)
    else if signed.1 = -1 ∧ v ≤ 2 ^ 63 then some (-(v : Int))
    else none
  else none

/-- Go `strings.Split(s, crlf)`: split on every non-overlapping
occurrence of the CR-LF separator; always returns at least one piece. -/
def splitCRLF : List Char → List (List Char)
  | [] => [[]]
  | '\r' :: '\n' :: rest => [] :: splitCRLF rest
  | c :: rest =>
    match splitCRLF rest with
    | [] => [[c]]
    | l :: ls => (c :: l) :: ls

/-- The error token `parse` returns for a non-numeric `*` count. -/
def parseErrorHeader : String := "Encountered error"

/-- The error token `parse` returns for a non-numeric `$` length. -/
def parseErrorLength : String := "Encountered error while parsing $"

/-- The argument-collecting loop of `parse` (the `for _, v := range
commands[1:]` loop): a line starting with `$` must carry a numeric length
and arms the flag; the next non-`$` line is lower-cased and collected.
`none` models the early `return` with the `$`-error token. -/
def parseArgs : Bool → List (List Char) → Option (List String)
  | _, [] => some []
  | flag, v :: rest =>
    if v.head? = some '$' then
      match atoi v.tail with
      | none => none
      | some _ => parseArgs true rest
    else if flag then
      (parseArgs false rest).map (fun as => lowerStr (String.mk v) :: as)
    else
      parseArgs false rest

/-- `parse` from server.go: split the buffer on CR-LF; if the first line
starts with `*` its remainder must be numeric (else the header error
token); then collect `$`-length/content pairs (a bad `$` length yields
the length error token). A buffer not starting with `*` yields `[]`. -/
def parse (input : String) : List String :=
  match splitCRLF input.data with
  | [] => []
  | l0 :: rest =>
    if l0.head? = some '*' then
      match atoi l0.tail with
      | none => [parseErrorHeader]
      | some _ =>
        match parseArgs false rest with
        | none => [parseErrorLength]
        | some args => args
    else []

/-- The key-value store: `Data` and `Expiries` maps of `Store` in
server.go. Expiry instants are absolute integer nanoseconds. -/
structure Store where
  data : String → Option String
  expiries : String → Option Int

def Store.empty : Store := ⟨fun _ => none, fun _ => none⟩

/-- `Store.Set`: always writes the value; a positive ttl records the
absolute expiry `now + ttl`, otherwise any prior expiry is deleted. -/
def Store.set (s : Store) (key value : String) (ttl now : Int) : Store :=
  { data := fun k => if k = key then some value else s.data k
    expiries :=
      if ttl > 0 then
        fun k => if k = key then some (now + ttl) else s.expiries k
      else
        fun k => if k = key then none else s.expiries k }

/-- `Store.Get`: if an expiry exists and `now` is strictly after it, the
key is deleted from both maps and not-found is returned; otherwise the
plain lookup. Returns (value, found, store after the call). -/
def Store.get (s : Store) (key : String) (now : Int) : String × Bool × Store :=
  let expired : Bool :=
    match s.expiries key with
    | some e => decide (now > e)
    | none => false
  if expired then
    ("", false,
      ⟨fun k => if k = key then none else s.data k,
       fun k => if k = key then none else s.expiries k⟩)
  else
    match s.data key with
    | some v => (v, true, s)
    | none => ("", false, s)

def pingResponse : String := "+PONG\r\n"
def okResponse : String := "+OK\r\n"
def notFoundResponse : String := "$-1\r\n"
def replId : String := "8371b4fb1155b71f4a04d3e1bc3e18c4a990aeeb"

/-- `createResponseMsg`: RESP bulk string, length in bytes. -/
def createResponseMsg (msg : String) : String :=
  "$" ++ toString msg.utf8ByteSize ++ "\r\n" ++ msg ++ "\r\n"

/-- The INFO payload built in the master branch (string concatenation
exactly as in the code: no separator after `role:master`). -/
def masterInfo : String :=
  "role:master" ++ "master_replid:" ++ replId ++ "\r\n" ++
    "master_repl_offset:0\r\n"

/-- The INFO payload: the master string is replaced wholesale by
`role:slave` when the process was started with `-replicaof`. -/
def infoResponse (replicaOf : String) : String :=
  if replicaOf = "" then masterInfo else "role:slave"

/-- The frame forwarded to every registered replica on SET: a fixed
3-argument array carrying the frame's key and value, no TTL. -/
def forwardSetFrame (key value : String) : String :=
  "*3\r\n$3\r\nSET\r\n$" ++ toString key.utf8ByteSize ++ "\r\n" ++ key ++
    "\r\n$" ++ toString value.utf8ByteSize ++ "\r\n" ++ value ++ "\r\n"

def fullResyncResponse : String := "+FULLRESYNC " ++ replId ++ " 0\r\n"

/-- The ttl computed in the SET branch from the arguments after key and
value: exactly `[px, ms]` with a numeric ms gives ms milliseconds in
nanoseconds, anything else gives 0 (no expiry). -/
def setTTL (rest : List String) : Int :=
  match rest with
  | [px, ms] =>
    if px = "px" then
      match atoi ms.data with
      | some v => v * 1000000
      | none => 0
    else 0
  | _ => 0

/-- One network write performed by the dispatcher: to the handled client
connection, to a registered replica connection (by id), or the raw RDB
snapshot blob sent after FULLRESYNC (kept opaque). -/
inductive Wr where
  | client (msg : String)
  | slaveMsg (id : Nat) (msg : String)
  | clientRDB
deriving DecidableEq

/-- One iteration of the `handleConnection` loop after a successful read,
acting on the decoded frame: returns the new store, the new registered
replica list, and the ordered list of writes — or `none` for the Go
runtime panic caused by an out-of-range `commands[i]` access.
`isMaster` is the flag telling the handler that this connection is the
replica's inbound link from its master (replies suppressed). -/
def dispatch (replicaOf : String) (isMaster : Bool) (conn : Nat)
    (frame : List String) (st : Store) (slaves : List Nat) (now : Int) :
    Option (Store × List Nat × List Wr) :=
  match frame with
  | [] => some (st, slaves, [])
  | c :: args =>
    if c = "echo" then
      match args with
      | [] => none
      | a :: _ =>
        some (st, slaves,
          if isMaster then [] else [Wr.client (createResponseMsg a)])
    else if c = "ping" then
      some (st, slaves, if isMaster then [] else [Wr.client pingResponse])
    else if c = "set" then
      match args with
      | key :: value :: rest =>
        some (Store.set st key value (setTTL rest) now, slaves,
          slaves.map (fun id => Wr.slaveMsg id (forwardSetFrame key value)) ++
            (if isMaster then [] else [Wr.client okResponse]))
      | _ => some (st, slaves, [])
    else if c = "get" then
      match args with
      | [] => none
      | key :: _ =>
        let r := Store.get st key now
        some (r.2.2, slaves,
          if isMaster then []
          else if r.2.1 then [Wr.client (createResponseMsg r.1)]
          else [Wr.client notFoundResponse])
    else if c = "info" then
      some (st, slaves,
        if isMaster then []
        else [Wr.client (createResponseMsg (infoResponse replicaOf))])
    else if c = "replconf" then
      some (st, slaves, if isMaster then [] else [Wr.client okResponse])
    else if c = "psync" then
      some (st, slaves ++ [conn],
        if isMaster then []
        else [Wr.client fullResyncResponse, Wr.clientRDB])
    else
      some (st, slaves, [])

/-- The REPLCONF-triggered ACK frame written back to the master, carrying
the replica's current offset. -/
def ackResponse (off : Nat) : String :=
  "*3\r\n$8\r\nREPLCONF\r\n$3\r\nACK\r\n$" ++
    toString (toString off).length ++ "\r\n" ++ toString off ++ "\r\n"

/-- The zero value of the `Replica` struct's offset field. -/
def initialOffset : Nat := 0

/-- One iteration of the `replicateMaster` receive loop after a read of
`n` bytes decoded to `frame`: returns the new store, the new offset, and
the list of writes sent back on the master connection. SET with enough
arguments is applied and advances the offset; REPLCONF writes an ACK
carrying the pre-increment offset and then advances; every other
non-empty frame just advances the offset. -/
def replicaStep (frame : List String) (st : Store) (off : Nat)
    (now : Int) (n : Nat) : Store × Nat × List String :=
  match frame with
  | [] => (st, off, [])
  | c :: args =>
    if c = "set" then
      match args with
      | key :: value :: rest =>
        (Store.set st key value (setTTL rest) now, off + n, [])
      | _ => (st, off, [])
    else if c = "replconf" then
      (st, off + n, [ackResponse off])
    else
      (st, off + n, [])

/-- An abstract store operation, for reasoning about sequences of calls. -/
inductive StoreOp where
  | setOp (key value : String) (ttl now : Int)
  | getOp (key : String) (now : Int)

def applyOp (s : Store) : StoreOp → Store
  | .setOp k v ttl now => Store.set s k v ttl now
  | .getOp k now => (Store.get s k now).2.2

def runOps (ops : List StoreOp) : Store :=
  ops.foldl applyOp Store.empty

/-- `pat` occurs contiguously at the start of `s`. -/
def seqStarts : List Char → List Char → Bool
  | [], _ => true
  | _ :: _, [] => false
  | p :: ps, c :: cs => p == c && seqStarts ps cs

/-- `pat` occurs contiguously somewhere in `s`. -/
def containsSeq (pat : List Char) : List Char → Bool
  | [] => pat.isEmpty
  | c :: cs => seqStarts pat (c :: cs) || containsSeq pat cs

/-- Some line of the buffer is a `$` length line with a non-numeric
length (the malformed-input condition of the spec). -/
def hasBadLenLine (lines : List (List Char)) : Bool :=
  lines.any (fun v => v.head? == some '$' && (atoi v.tail).isNone)

/-- The key-in-expiries-implies-key-in-data invariant of the store. -/
def StoreInv (s : Store) : Prop :=
  ∀ k, (s.expiries k).isSome → (s.data k).isSome

theorem parseArgs_of_bad_line (lines : List (List Char))
    (h : ∃ v ∈ lines, v.head? = some '$' ∧ atoi v.tail = none) :
    ∀ flag, parseArgs flag lines = none := by
  induction lines with
  | nil => simp at h
  | cons v rest ih =>
    intro flag
    rcases h with ⟨w, hw, hdol, hbad⟩
    rcases List.mem_cons.mp hw with hw | hw
    · subst hw
      simp [parseArgs, hdol, hbad]
    · have hrec := ih ⟨w, hw, hdol, hbad⟩
      by_cases hv : v.head? = some '$'
      · simp only [parseArgs, hv, if_pos]
        cases hA : atoi v.tail with
        | none => rfl
        | some x => simp [hrec]
      · by_cases hf : flag = true
        · subst hf
          simp [parseArgs, hv, hrec]
        · simp at hf
          subst hf
          simp [parseArgs, hv, hrec]

theorem applyOp_inv (s : Store) (op : StoreOp) (h : StoreInv s) :
    StoreInv (applyOp s op) := by
  cases op with
  | setOp key v ttl now =>
    intro k hk
    by_cases hkk : k = key
    · subst hkk
      simp [applyOp, Store.set]
    · simp only [applyOp, Store.set] at hk ⊢
      by_cases ht : ttl > 0 <;> simp [ht, hkk] at hk ⊢ <;> exact h k hk
  | getOp key now =>
    intro k hk
    simp only [applyOp, Store.get] at hk ⊢
    by_cases hex :
        (match s.expiries key with
         | some e => decide (now > e)
         | none => false) = true
    · simp only [hex, if_pos] at hk ⊢
      by_cases hkk : k = key
      · simp [hkk] at hk
      · simp [hkk] at hk ⊢
        exact h k hk
    · simp only [Bool.not_eq_true] at hex
      simp only [hex, Bool.false_eq_true, if_false] at hk ⊢
      cases hd : s.data key with
      | some v => simp [hd] at hk ⊢; exact h k hk
      | none => simp [hd] at hk ⊢; exact h k hk

/-- C1: for every key k and value v, `set(k, v, 0)` always succeeds,
overwrites any prior value and clears any prior expiry for k, so that a
following `get(k)` — at any instant, over any prior store contents —
returns `(v, true)` and leaves the store unchanged. -/
theorem set_then_get_no_ttl (st : Store) (k v : String) (t t' : Int) :
    Store.get (Store.set st k v 0 t) k t' =
      (v, true, Store.set st k v 0 t) := by
  simp [Store.set, Store.get]

/-- C2: for every key k, value v and ttl > 0, `get(k)` immediately after
`set(k, v, ttl)` returns `(v, true)`; once the instant `t'` is strictly
after the expiry `t + ttl`, `get(k)` returns `("", false)` and removes k
from both the value map and the expiry map, so `get(k)` on the resulting
store returns not-found at every later instant (eviction is permanent). -/
theorem set_then_get_with_ttl (st : Store) (k v : String) (ttl t t' : Int)
    (httl : 0 < ttl) (hexp : t + ttl < t') :
    Store.get (Store.set st k v ttl t) k t =
      (v, true, Store.set st k v ttl t) ∧
    Store.get (Store.set st k v ttl t) k t' =
      ("", false, (Store.get (Store.set st k v ttl t) k t').2.2) ∧
    ((Store.get (Store.set st k v ttl t) k t').2.2).data k = none ∧
    ((Store.get (Store.set st k v ttl t) k t').2.2).expiries k = none ∧
    ∀ t'',
      Store.get ((Store.get (Store.set st k v ttl t) k t').2.2) k t'' =
        ("", false, (Store.get (Store.set st k v ttl t) k t').2.2) := by
  have hpos : ttl > 0 := httl
  have hnot : ¬ (t > t + ttl) := by omega
  have hyes : t' > t + ttl := hexp
  refine ⟨?_, ?_, ?_, ?_, ?_⟩
  · simp [Store.set, Store.get, hpos, hnot]
  · simp [Store.set, Store.get, hpos, hyes]
  · simp [Store.set, Store.get, hpos, hyes]
  · simp [Store.set, Store.get, hpos, hyes]
  · intro t''
    simp [Store.set, Store.get, hpos, hyes]

theorem set_then_get_with_ttl_check :
    ((0 : Int) < 5 ∧ (0 : Int) + 5 < 6) ∧
    Store.get (Store.set Store.empty "a" "b" 5 0) "a" 0 =
      ("b", true, Store.set Store.empty "a" "b" 5 0) :=
  ⟨⟨by decide, by decide⟩,
   (set_then_get_with_ttl Store.empty "a" "b" 5 0 6 (by decide) (by decide)).1⟩

/-- C3, counterexample: an ECHO frame with zero arguments (and likewise a
GET frame with zero arguments) makes the dispatcher read `commands[1]`
out of range — a Go runtime panic, modelled as `none` — instead of the
claimed silent no-op. -/
theorem underflow_panics_cex :
    dispatch "" false 0 ["echo"] Store.empty [] 0 = none ∧
    dispatch "" false 0 ["get"] Store.empty [] 0 = none :=
  ⟨rfl, rfl⟩

/-- C3, amended: a SET frame with fewer than two arguments is a silent
no-op for that iteration (no reply, store and replica list unchanged),
but ECHO with zero arguments and GET with zero arguments access the
frame out of range and panic. -/
theorem underflow_behaviour (ro : String) (conn : Nat) (st : Store)
    (slaves : List Nat) (now : Int) (k : String) :
    dispatch ro false conn ["set"] st slaves now = some (st, slaves, []) ∧
    dispatch ro false conn ["set", k] st slaves now = some (st, slaves, []) ∧
    dispatch ro false conn ["echo"] st slaves now = none ∧
    dispatch ro false conn ["get"] st slaves now = none :=
  ⟨rfl, rfl, rfl, rfl⟩

/-- C4: when the dispatcher (serving an ordinary client) processes a SET
frame with at least a key and a value, it emits one forwarded 3-argument
`SET key value` frame — the TTL arguments, if any, omitted — to every
connection in the registered replica list, and these writes precede the
`+OK` reply to the originating client; PSYNC is what appends a connection
to that list; the forwarded frame has the exact claimed wire shape. -/
theorem set_forwarded_before_ok (ro : String) (conn : Nat) (k v : String)
    (rest args : List String) (st : Store) (slaves : List Nat) (now : Int) :
    dispatch ro false conn ("set" :: k :: v :: rest) st slaves now =
      some (Store.set st k v (setTTL rest) now, slaves,
        slaves.map (fun id => Wr.slaveMsg id (forwardSetFrame k v)) ++
          [Wr.client okResponse]) ∧
    dispatch ro false conn ("psync" :: args) st slaves now =
      some (st, slaves ++ [conn],
        [Wr.client fullResyncResponse, Wr.clientRDB]) ∧
    forwardSetFrame "foo" "bar" =
      "*3\r\n$3\r\nSET\r\n$3\r\nfoo\r\n$3\r\nbar\r\n" :=
  ⟨rfl, rfl, by decide⟩

/-- C5, counterexample: the buffer `*1\r\n$3\r\nSET\r\n` (13 bytes)
decodes successfully to the frame `["set"]`, which the replica loop does
not apply — and, against the claim, the loop's `set` case also skips the
offset increment, leaving the offset at 0 instead of advancing it by 13. -/
theorem offset_not_advanced_cex :
    parse "*1\r\n$3\r\nSET\r\n" = ["set"] ∧
    ("*1\r\n$3\r\nSET\r\n" : String).utf8ByteSize = 13 ∧
    (replicaStep ["set"] Store.empty 0 0 13).2.1 = 0 ∧ (0 : Nat) ≠ 13 :=
  ⟨by decide, by decide, rfl, by decide⟩

/-- C5, amended: the replica offset starts at zero and never decreases;
each loop iteration advances it by the raw byte count `n` of the
underlying read for every decoded frame — applied or not — except a SET
frame with fewer than two arguments after the command name (and an empty
decode), which leaves the offset unchanged. -/
theorem offset_advancement (frame : List String) (st : Store) (off : Nat)
    (now : Int) (n : Nat) :
    initialOffset = 0 ∧
    (replicaStep frame st off now n).2.1 =
      (match frame with
       | [] => off
       | c :: args =>
         if c = "set" ∧ args.length < 2 then off else off + n) ∧
    off ≤ (replicaStep frame st off now n).2.1 := by
  refine ⟨rfl, ?_, ?_⟩
  · cases frame with
    | nil => rfl
    | cons c args =>
      by_cases hc : c = "set"
      · subst hc
        match args with
        | [] => simp [replicaStep]
        | [k] => simp [replicaStep]
        | k :: v :: rest =>
          have hlen : ¬ (rest.length + 1 + 1 < 2) := by omega
          simp [replicaStep, hlen]
      · by_cases hr : c = "replconf" <;> simp [replicaStep, hc, hr]
  · cases frame with
    | nil => exact Nat.le_refl off
    | cons c args =>
      by_cases hc : c = "set"
      · subst hc
        match args with
        | [] => simp [replicaStep]
        | [k] => simp [replicaStep]
        | k :: v :: rest => simp [replicaStep]
      · by_cases hr : c = "replconf" <;> simp [replicaStep, hc, hr]

/-- C6: in the replica's receive loop, the only bytes ever written back
on the master connection are the REPLCONF-triggered ACK frames carrying
the current offset; every frame whose command is not `replconf` —
including SET, PING and unknown commands — writes nothing to the master. -/
theorem replica_writes_only_ack (frame : List String) (st : Store)
    (off : Nat) (now : Int) (n : Nat) :
    (replicaStep frame st off now n).2.2 =
      (if frame.head? = some "replconf" then [ackResponse off] else []) := by
  cases frame with
  | nil => rfl
  | cons c args =>
    by_cases hc : c = "replconf"
    · subst hc
      simp [replicaStep]
    · by_cases hs : c = "set"
      · subst hs
        match args with
        | [] => simp [replicaStep]
        | [k] => simp [replicaStep]
        | k :: v :: rest => simp [replicaStep]
      · simp [replicaStep, hc, hs]

/-- C7, counterexample: the buffer `$a\r\nx\r\n` contains a `$` length
line with a non-numeric length, yet the decoder returns the empty frame
`[]` — not a frame containing a single error token — because its first
line does not begin with `*`. -/
theorem malformed_no_error_token_cex :
    hasBadLenLine (splitCRLF ("$a\r\nx\r\n" : String).data) = true ∧
    parse "$a\r\nx\r\n" = [] ∧
    parse "$a\r\nx\r\n" ≠ [parseErrorHeader] ∧
    parse "$a\r\nx\r\n" ≠ [parseErrorLength] :=
  ⟨by decide, by decide, by decide, by decide⟩

/-- C7, amended: for every input buffer whose first line begins with `*`,
a non-numeric count yields the single header error token, and a numeric
count followed by some `$` line with a non-numeric length yields the
single length error token; the dispatcher matches either token to no
command, does not crash, writes no reply and leaves the store and the
replica list unchanged. (A buffer whose first line does not begin with
`*` decodes to the empty frame instead, which is likewise skipped.) -/
theorem malformed_yields_error_token (input : String) (l0 : List Char)
    (rest : List (List Char)) (hsplit : splitCRLF input.data = l0 :: rest)
    (hstar : l0.head? = some '*') :
    (atoi l0.tail = none → parse input = [parseErrorHeader]) ∧
    (∀ x, atoi l0.tail = some x →
      (∃ v ∈ rest, v.head? = some '$' ∧ atoi v.tail = none) →
      parse input = [parseErrorLength]) ∧
    (∀ ro im conn st slaves now,
      dispatch ro im conn [parseErrorHeader] st slaves now =
        some (st, slaves, []) ∧
      dispatch ro im conn [parseErrorLength] st slaves now =
        some (st, slaves, [])) := by
  refine ⟨?_, ?_, ?_⟩
  · intro hbad
    unfold parse
    rw [hsplit]
    simp [hstar, hbad]
  · intro x hok hbadline
    unfold parse
    rw [hsplit]
    simp [hstar, hok, parseArgs_of_bad_line rest hbadline false]
  · intro ro im conn st slaves now
    exact ⟨rfl, rfl⟩

theorem malformed_yields_error_token_check :
    parse "*x\r\n" = [parseErrorHeader] ∧
    parse "*1\r\n$y\r\nz\r\n" = [parseErrorLength] := by
  constructor
  · exact (malformed_yields_error_token "*x\r\n" ['*', 'x'] [[]]
      (by decide) (by decide)).1 (by decide)
  · exact (malformed_yields_error_token "*1\r\n$y\r\nz\r\n" ['*', '1']
      [['$', 'y'], ['z'], []] (by decide) (by decide)).2.1 1 (by decide)
      ⟨['$', 'y'], by decide, by decide, by decide⟩

/-- C8, counterexample: the wire frame `*2\r\n$4\r\nECHO\r\n$5\r\nHELLO\r\n`
decodes to `["echo", "hello"]` — the decoder lower-cases content lines —
so the dispatcher replies `$5\r\nhello\r\n`, which is not the verbatim
wire argument `HELLO`. -/
theorem echo_not_verbatim_cex :
    parse "*2\r\n$4\r\nECHO\r\n$5\r\nHELLO\r\n" = ["echo", "hello"] ∧
    (dispatch "" false 0 ["echo", "hello"] Store.empty [] 0).map
        (fun r => r.2.2) = some [Wr.client "$5\r\nhello\r\n"] ∧
    ("$5\r\nhello\r\n" : String) ≠ "$5\r\nHELLO\r\n" :=
  ⟨by decide, by decide, by decide⟩

/-- C8, amended: for every ECHO frame with at least one argument, the
dispatcher replies with the bulk string `$<len>\r\n<arg>\r\n` echoing the
frame's first argument exactly as it appears in the decoded frame; since
the decoder lower-cases content lines, an upper-case wire payload is
echoed lower-cased rather than verbatim. -/
theorem echo_replies_frame_argument (ro : String) (conn : Nat) (a : String)
    (rest : List String) (st : Store) (slaves : List Nat) (now : Int) :
    dispatch ro false conn ("echo" :: a :: rest) st slaves now =
      some (st, slaves, [Wr.client (createResponseMsg a)]) ∧
    lowerStr "HELLO" = "hello" :=
  ⟨rfl, by decide⟩

/-- C9, counterexample: in replica role (a non-empty replicaof setting)
the INFO reply is the bulk string of exactly `role:slave`, which contains
neither the fixed replication id nor the replication offset line. -/
theorem info_replica_cex :
    (dispatch "localhost 6379" false 0 ["info"] Store.empty [] 0).map
        (fun r => r.2.2) =
      some [Wr.client (createResponseMsg "role:slave")] ∧
    containsSeq replId.data ("role:slave" : String).data = false ∧
    containsSeq ("master_repl_offset" : String).data
      ("role:slave" : String).data = false :=
  ⟨by decide, by decide, by decide⟩

/-- C9, amended: INFO always replies with a bulk string describing the
role, but only in master role does the reply also contain the fixed
replication id and the replication offset line; in replica role the
master string is replaced wholesale by `role:slave`, so the id and
offset are absent from the reply. -/
theorem info_role_reply (ro : String) (conn : Nat) (st : Store)
    (slaves : List Nat) (now : Int) :
    (ro = "" →
      dispatch ro false conn ["info"] st slaves now =
        some (st, slaves, [Wr.client (createResponseMsg masterInfo)]) ∧
      containsSeq replId.data masterInfo.data = true ∧
      containsSeq ("master_repl_offset:0" : String).data
        masterInfo.data = true) ∧
    (ro ≠ "" →
      dispatch ro false conn ["info"] st slaves now =
        some (st, slaves, [Wr.client (createResponseMsg "role:slave")])) := by
  constructor
  · intro h
    subst h
    exact ⟨rfl, by decide, by decide⟩
  · intro h
    simp [dispatch, infoResponse, h]

theorem info_role_reply_check :
    dispatch "" false 0 ["info"] Store.empty [] 0 =
      some (Store.empty, [], [Wr.client (createResponseMsg masterInfo)]) ∧
    dispatch "localhost 6379" false 0 ["info"] Store.empty [] 0 =
      some (Store.empty, [], [Wr.client (createResponseMsg "role:slave")]) :=
  ⟨((info_role_reply "" 0 Store.empty [] 0).1 rfl).1,
   (info_role_reply "localhost 6379" 0 Store.empty [] 0).2 (by decide)⟩

/-- C10: starting from the empty store, after any finite sequence of set
and get operations, every key holding an expiry also holds a value — set
with positive ttl writes both maps, set with ttl 0 deletes only the
expiry while writing the value, and get's lazy eviction deletes from
both maps together. -/
theorem expiry_implies_value (ops : List StoreOp) (k : String) (e : Int)
    (h : (runOps ops).expiries k = some e) :
    ∃ v, (runOps ops).data k = some v := by
  have hinv : ∀ (l : List StoreOp) (s : Store), StoreInv s →
      StoreInv (l.foldl applyOp s) := by
    intro l
    induction l with
    | nil => intro s hs; exact hs
    | cons op rest ih =>
      intro s hs
      exact ih (applyOp s op) (applyOp_inv s op hs)
  have hempty : StoreInv Store.empty := by
    intro k' hk'
    simp [Store.empty] at hk'
  have := hinv ops Store.empty hempty k (by simp [runOps] at h ⊢; simp [h])
  rw [Option.isSome_iff_exists] at this
  simpa [runOps] using this

theorem expiry_implies_value_check :
    (runOps [StoreOp.setOp "a" "b" 5 0]).expiries "a" = some 5 ∧
    ∃ v, (runOps [StoreOp.setOp "a" "b" 5 0]).data "a" = some v :=
  ⟨by decide, expiry_implies_value [StoreOp.setOp "a" "b" 5 0] "a" 5 (by decide)⟩

end RedisGo
